import Mathlib

/-!
# Verification of the loglog structured-logging library

Shallow embedding of the repository's core components:

* `src/transports/RemoteTransport.ts` — the batching remote transport
  (queue, flush, retry/backoff, fallback, cleanup);
* the `Logger` class (`src/Logger.ts`, bundled into `src/index.ts`) —
  level filtering, transport fan-out, `withContext`, `time`;
* `src/middleware.ts` — the request-logging middleware's `sanitizeObject`
  redaction helper.

JavaScript objects are modelled as association lists of `String × Val`
where lookup takes the first matching binding; the JS spread
`{...a, ...b}` is modelled by prepending `b`'s bindings so that `b` wins
on key collision, which matches the observable (lookup) semantics.
-/

namespace LogLog

/-- Log levels, `LogLevel` enum from `src/types.ts`:
`DEBUG = 'debug'`, `INFO = 'info'`, `WARN = 'warn'`, `ERROR = 'error'`. -/
inductive LogLevel where
  | debug
  | info
  | warn
  | error
deriving DecidableEq, Repr

/-- Verbosity index of a level, giving the documented total order
debug < info < warn < error. -/
def LogLevel.idx : LogLevel → Nat
  | .debug => 0
  | .info => 1
  | .warn => 2
  | .error => 3

/-- JavaScript values as they appear in log contexts, request bodies,
headers and query objects.  `undef` models the JS `undefined` value
(present on a key after a spread such as `{..., traceId: undefined}`,
but omitted by `JSON.stringify`). -/
inductive Val where
  | str (s : String)
  | num (n : Int)
  | bool (b : Bool)
  | null
  | undef
deriving DecidableEq, Repr

/-- JS truthiness of a value, as used by `if (sanitized[field.toLowerCase()])`
in the middleware: empty string, `0`, `false`, `null` and `undefined`
are falsy; everything else is truthy. -/
def Val.truthy : Val → Bool
  | .str s => !(s == "")
  | .num n => !(n == 0)
  | .bool b => b
  | .null => false
  | .undef => false

/-- A JavaScript object (request body, headers, query, log context):
an association list; keys are case-sensitive as in JS. -/
abbrev Obj := List (String × Val)

/-- Property lookup `o[k]`: first binding for `k`, `none` when the key
is absent (JS `undefined` for a missing property). -/
def getKey (o : Obj) (k : String) : Option Val :=
  match o with
  | [] => none
  | (k₀, v) :: rest => if k₀ = k then some v else getKey rest k

/-- Property assignment `o[k] = v` on an object already holding key `k`
(the middleware only assigns under a guard that the key is present and
truthy): replaces the binding(s) for `k`, leaves other keys untouched. -/
def setKey : Obj → String → Val → Obj
  | [], _, _ => []
  | (k₀, v₀) :: rest, k, v =>
      if k₀ = k then (k, v) :: setKey rest k v else (k₀, v₀) :: setKey rest k v

/-- JS `String.prototype.toLowerCase()` as used by the middleware
(`field.toLowerCase()`); character-wise ASCII lowercasing. -/
def jsToLower (s : String) : String := ⟨s.data.map Char.toLower⟩

/-- JS object spread `{...a, ...b}` at the level of lookup semantics:
`b`'s bindings shadow `a`'s. -/
def mergeCtx (a b : Obj) : Obj := b ++ a

/-- Lookup as observed through `JSON.stringify`: a key bound to
`undefined` is omitted from the serialized output. -/
def jsonGet (o : Obj) (k : String) : Option Val :=
  match getKey o k with
  | some .undef => none
  | r => r

/-! ## Middleware redaction (`sanitizeObject`, `src/middleware.ts` lines 129-138)

```js
const sanitizeObject = (obj, sensitiveFields) => {
  if (!obj) return obj;
  const sanitized = { ...obj };
  sensitiveFields.forEach(field => {
    if (sanitized[field.toLowerCase()]) {
      sanitized[field.toLowerCase()] = '[REDACTED]';
    }
  });
  return sanitized;
};
```

Note: only the *configured field name* is lowercased; the object's own
keys are looked up case-sensitively. -/

/-- One iteration of the `forEach` body for a single sensitive field. -/
def sanitizeStep (sanitized : Obj) (field : String) : Obj :=
  match getKey sanitized (jsToLower field) with
  | some v => if v.truthy then setKey sanitized (jsToLower field) (.str "[REDACTED]") else sanitized
  | none => sanitized

/-- `sanitizeObject(obj, sensitiveFields)` from the middleware. -/
def sanitizeObject (obj : Obj) (sensitiveFields : List String) : Obj :=
  sensitiveFields.foldl sanitizeStep obj

theorem getKey_setKey (o : Obj) (k k' : String) (v : Val) :
    getKey (setKey o k v) k' =
      if k' = k ∧ (getKey o k).isSome then some v else getKey o k' := by
  induction o with
  | nil => simp [getKey, setKey]
  | cons p rest ih =>
    obtain ⟨k₀, v₀⟩ := p
    by_cases h0 : k₀ = k
    · rw [show setKey ((k₀, v₀) :: rest) k v = (k, v) :: setKey rest k v from by
        simp [setKey, h0]]
      by_cases h1 : k' = k
      · simp [getKey, h0, h1]
      · have h1s : ¬ (k = k') := fun h => h1 h.symm
        simp [getKey, h0, h1, h1s, ih]
    · rw [show setKey ((k₀, v₀) :: rest) k v = (k₀, v₀) :: setKey rest k v from by
        simp [setKey, h0]]
      by_cases h1 : k₀ = k'
      · have h2 : ¬ (k' = k) := fun h => h0 (h1.trans h)
        simp [getKey, h1, h2]
      · simp [getKey, h0, h1, ih]

/-- Truthiness of the looked-up value, `false` when the key is absent:
the middleware's guard `if (sanitized[field.toLowerCase()])`
(a missing property reads as `undefined`, which is falsy). -/
def truthyAt (o : Obj) (k : String) : Bool :=
  (getKey o k).elim false Val.truthy

theorem getKey_sanitizeStep (o : Obj) (f : String) (k : String) :
    getKey (sanitizeStep o f) k =
      if k = jsToLower f ∧ truthyAt o k then some (.str "[REDACTED]")
      else getKey o k := by
  by_cases hk : k = jsToLower f
  · rw [hk]
    unfold sanitizeStep
    cases hg : getKey o (jsToLower f) with
    | none =>
      have hf : truthyAt o (jsToLower f) = false := by unfold truthyAt; rw [hg]; rfl
      simp [hf, hg]
    | some v =>
      have htv : truthyAt o (jsToLower f) = v.truthy := by unfold truthyAt; rw [hg]; rfl
      cases ht : v.truthy with
      | true => simp [getKey_setKey, hg, htv, ht]
      | false => simp [htv, ht, hg]
  · unfold sanitizeStep
    cases hg : getKey o (jsToLower f) with
    | none => simp [hk, hg]
    | some v =>
      cases ht : v.truthy with
      | true =>
        simp only [hg, ht, if_true]
        rw [getKey_setKey]
        have hne : ¬ (k = jsToLower f ∧ (getKey o (jsToLower f)).isSome = true) :=
          fun h => hk h.1
        simp [hne, hk]
      | false => simp [hk, hg, ht]

theorem truthyAt_sanitizeStep (o : Obj) (f k : String) :
    truthyAt (sanitizeStep o f) k = truthyAt o k := by
  by_cases h : k = jsToLower f ∧ truthyAt o k = true
  · have hred : getKey (sanitizeStep o f) k = some (.str "[REDACTED]") := by
      rw [getKey_sanitizeStep]; exact if_pos h
    unfold truthyAt
    rw [hred]
    simp [Val.truthy]
    have h2 := h.2
    unfold truthyAt at h2
    exact h2
  · have hsame : getKey (sanitizeStep o f) k = getKey o k := by
      rw [getKey_sanitizeStep]; exact if_neg h
    unfold truthyAt
    rw [hsame]

/-- Characterization of `sanitizeObject` at an arbitrary key: the value
is replaced by `"[REDACTED]"` exactly when the key equals the
*lowercased* form of some configured sensitive field and the original
value is truthy; otherwise it is returned unchanged. -/
theorem getKey_sanitizeObject (obj : Obj) (fields : List String) (k : String) :
    getKey (sanitizeObject obj fields) k =
      if (fields.any (fun f => k == jsToLower f)) && truthyAt obj k
      then some (.str "[REDACTED]") else getKey obj k := by
  induction fields generalizing obj with
  | nil => simp [sanitizeObject]
  | cons f fs ih =>
    have hfold : sanitizeObject obj (f :: fs) = sanitizeObject (sanitizeStep obj f) fs := rfl
    rw [hfold, ih, truthyAt_sanitizeStep, getKey_sanitizeStep]
    cases ht : truthyAt obj k with
    | false => simp [ht]
    | true =>
      by_cases hk : k = jsToLower f
      · simp [List.any_cons, hk, ht]
      · simp [List.any_cons, hk, ht]

/-! ## Claims C9 and C10 -/

/-- Claim C9 as stated by the spec: redaction matches field names
case-insensitively — any field of the object whose name matches a
configured sensitive field name *under any casing* is logged as
`"[REDACTED]"`. -/
def ClaimC9 : Prop :=
  ∀ (obj : Obj) (fields : List String) (k f : String),
    f ∈ fields → jsToLower k = jsToLower f → (getKey obj k).isSome →
    getKey (sanitizeObject obj fields) k = some (.str "[REDACTED]")

/-- C9 counterexample: a body `{Password: "x"}` with sensitive list
`["password"]` matches case-insensitively, yet `sanitizeObject` only
probes the key `"password"` (it lowercases the configured name, never
the object's keys), so the value `"x"` is logged unredacted. -/
theorem c9_counterexample : ¬ ClaimC9 := by
  intro h
  have hx := h [("Password", .str "x")] ["password"] "Password" "password"
    (by decide) (by decide) (by decide)
  exact absurd hx (by decide)

/-- C9 (amended): redaction is by *exact* match of an object key against
the lowercased configured sensitive field names, and only when the
stored value is truthy: `sanitizeObject` replaces the value at key `k`
with `"[REDACTED]"` iff `k` equals `jsToLower f` for some configured `f`
and the original value at `k` is truthy, and leaves every other key
unchanged.  In particular, for body `{password: "x", username: "y"}`
and sensitive list `["password"]`, the logged data contains
`username: "y"` and `password: "[REDACTED]"`. -/
theorem c9_redaction_exact_lowercase_match :
    (∀ (obj : Obj) (fields : List String) (k : String),
        getKey (sanitizeObject obj fields) k =
          if (fields.any (fun f => k == jsToLower f)) && truthyAt obj k
          then some (.str "[REDACTED]") else getKey obj k) ∧
    getKey (sanitizeObject [("password", .str "x"), ("username", .str "y")]
        ["password"]) "password" = some (.str "[REDACTED]") ∧
    getKey (sanitizeObject [("password", .str "x"), ("username", .str "y")]
        ["password"]) "username" = some (.str "y") :=
  ⟨getKey_sanitizeObject, by decide, by decide⟩

/-- C10: a sensitive field whose stored value is falsy (empty string,
`0`, `false`, `null`) is *not* redacted — the truthiness guard
`if (sanitized[field.toLowerCase()])` skips it, so falsy secrets pass
through to the logs unchanged. -/
theorem c10_falsy_secret_not_redacted :
    ∀ (obj : Obj) (fields : List String) (f : String),
      f ∈ fields → truthyAt obj (jsToLower f) = false →
      getKey (sanitizeObject obj fields) (jsToLower f) = getKey obj (jsToLower f) := by
  intro obj fields f hf ht
  rw [getKey_sanitizeObject]
  simp [ht]

/-- Witness for C10 at the concrete body `{password: "", username: "y"}`
with sensitive list `["password"]`: the empty-string password is falsy
and survives sanitization unchanged. -/
theorem c10_falsy_secret_not_redacted_witness :
    ("password" ∈ (["password"] : List String)) ∧
    truthyAt [("password", .str ""), ("username", .str "y")] (jsToLower "password") = false ∧
    getKey (sanitizeObject [("password", .str ""), ("username", .str "y")]
        ["password"]) (jsToLower "password")
      = getKey [("password", .str ""), ("username", .str "y")] (jsToLower "password") :=
  ⟨by decide, by decide,
    c10_falsy_secret_not_redacted _ _ _ (by decide) (by decide)⟩

/-! ## RemoteTransport (`src/transports/RemoteTransport.ts`)

Atomic model: every `flush()` call is modelled as one complete attempt —
the synchronous batch removal (`this.queue.splice(0, batchSize)`)
together with the outcome handling of the awaited `fetch` (the `try`
success path or the `catch` requeue/fallback path).  The fields
`delivered`, `fallback`, `retryDelays` and `accepted` are observation
(ghost) fields recording, respectively, batches acknowledged by the
remote endpoint, entries emitted via `console.error('[Remote Log
Failed]', entry)`, the millisecond delays passed to `setTimeout` for
backoff retries, and the entries accepted by `log()`. -/

/-- The `ClientConfig` options read by `RemoteTransport`
(`src/types/environment.ts`). -/
structure ClientConfig where
  enableRemote : Bool
  batchSize : Option Nat
  flushInterval : Option Nat
  maxRetries : Option Nat
deriving DecidableEq, Repr

/-- Effective batch size `this.config.batchSize || 50`: JS `||` falls
back to the default both when the option is absent and when it is `0`
(falsy). -/
def ClientConfig.batch (c : ClientConfig) : Nat :=
  match c.batchSize with
  | some n => if n = 0 then 50 else n
  | none => 50

/-- Effective retry ceiling `this.config.maxRetries || 3`. -/
def ClientConfig.maxR (c : ClientConfig) : Nat :=
  match c.maxRetries with
  | some n => if n = 0 then 3 else n
  | none => 3

/-- State of one `RemoteTransport` instance, over an abstract entry type
`α` (the transport never inspects entries). -/
structure RTState (α : Type) where
  queue : List α
  retryCount : Nat
  timerArmed : Bool
  delivered : List α
  fallback : List α
  retryDelays : List Nat
  accepted : List α
deriving DecidableEq, Repr

/-- Constructor state: empty queue, `retryCount = 0`, recurring timer
started by `startTimer()`. -/
def RTState.init {α : Type} : RTState α :=
  { queue := [], retryCount := 0, timerArmed := true,
    delivered := [], fallback := [], retryDelays := [], accepted := [] }

/-- `log(entry)` (lines 20-27): rejected silently when remote delivery
is disabled, otherwise pushed to the queue tail.  (The size-threshold
flush it may trigger is a separate `flushAttempt` step.) -/
def rtLog {α : Type} (cfg : ClientConfig) (e : α) (s : RTState α) : RTState α :=
  if cfg.enableRemote then
    { s with queue := s.queue ++ [e], accepted := s.accepted ++ [e] }
  else s

/-- One complete `flush()` attempt (lines 29-66).  `ok` abstracts the
outcome of the `fetch`: `true` for a 2xx response, `false` for a network
error or non-ok status.  Empty queue: early return.  Otherwise the head
batch is spliced off; on success the retry counter resets to `0`; on
failure the counter increments and the batch is either unshifted back
onto the queue front with a `setTimeout` retry after `2^retryCount`
seconds, or — once the counter exceeds `maxRetries` — emitted entry by
entry to the console fallback channel (with no counter reset). -/
def flushAttempt {α : Type} (cfg : ClientConfig) (ok : Bool) (s : RTState α) : RTState α :=
  if s.queue.isEmpty then s
  else
    let batch := s.queue.take cfg.batch
    let rest := s.queue.drop cfg.batch
    if ok then
      { s with queue := rest, retryCount := 0, delivered := s.delivered ++ batch }
    else
      let rc := s.retryCount + 1
      if rc ≤ cfg.maxR then
        { s with queue := batch ++ rest, retryCount := rc,
                 retryDelays := s.retryDelays ++ [2 ^ rc * 1000] }
      else
        { s with queue := rest, retryCount := rc, fallback := s.fallback ++ batch }

/-- `cleanup()` (lines 68-73): `clearInterval` on the recurring timer,
then one awaited `flush()`. -/
def rtCleanup {α : Type} (cfg : ClientConfig) (ok : Bool) (s : RTState α) : RTState α :=
  flushAttempt cfg ok { s with timerArmed := false }

/-- Step relation of a `RemoteTransport` instance: a `log()` call, a
flush attempt (timer tick, size threshold or backoff retry; outcome
`ok`), or `cleanup()`. -/
inductive RTStep {α : Type} (cfg : ClientConfig) : RTState α → RTState α → Prop where
  | log (e : α) (s : RTState α) : RTStep cfg s (rtLog cfg e s)
  | flush (ok : Bool) (s : RTState α) : RTStep cfg s (flushAttempt cfg ok s)
  | cleanup (ok : Bool) (s : RTState α) : RTStep cfg s (rtCleanup cfg ok s)

/-- States reachable from the constructor state. -/
def RTReachable {α : Type} (cfg : ClientConfig) (s : RTState α) : Prop :=
  Relation.ReflTransGen (RTStep cfg) RTState.init s

/-- Accounting invariant: the accepted entries are exactly the queued,
delivered and fallback-emitted ones (as a multiset). -/
def rtAccounted {α : Type} (s : RTState α) : Prop :=
  (s.queue : Multiset α) + s.delivered + s.fallback = s.accepted

theorem rtAccounted_rtLog {α : Type} (cfg : ClientConfig) (e : α) {s : RTState α}
    (h : rtAccounted s) : rtAccounted (rtLog cfg e s) := by
  unfold rtLog
  by_cases hr : cfg.enableRemote
  · rw [if_pos hr]
    unfold rtAccounted at h ⊢
    dsimp only
    simp only [← Multiset.coe_add]
    rw [← h]
    abel
  · rw [if_neg hr]
    exact h

theorem rtAccounted_flushAttempt {α : Type} (cfg : ClientConfig) (ok : Bool) {s : RTState α}
    (h : rtAccounted s) : rtAccounted (flushAttempt cfg ok s) := by
  unfold flushAttempt
  by_cases hq : s.queue.isEmpty
  · rw [if_pos hq]
    exact h
  · rw [if_neg hq]
    have hsplit : (s.queue.take cfg.batch : Multiset α) + (s.queue.drop cfg.batch) = s.queue := by
      rw [Multiset.coe_add, Multiset.coe_eq_coe, List.take_append_drop]
    cases ok with
    | true =>
      rw [if_pos rfl]
      unfold rtAccounted at h ⊢
      dsimp only
      simp only [← Multiset.coe_add]
      rw [← h, ← hsplit]
      abel
    | false =>
      rw [if_neg (by simp)]
      by_cases hrc : s.retryCount + 1 ≤ cfg.maxR
      · rw [if_pos hrc]
        unfold rtAccounted at h ⊢
        dsimp only
        simp only [← Multiset.coe_add]
        rw [← h, ← hsplit]
      · rw [if_neg hrc]
        unfold rtAccounted at h ⊢
        dsimp only
        simp only [← Multiset.coe_add]
        rw [← h, ← hsplit]
        abel

theorem rtAccounted_rtCleanup {α : Type} (cfg : ClientConfig) (ok : Bool) {s : RTState α}
    (h : rtAccounted s) : rtAccounted (rtCleanup cfg ok s) := by
  unfold rtCleanup
  exact rtAccounted_flushAttempt cfg ok (by simpa [rtAccounted] using h)

theorem rtAccounted_of_reachable {α : Type} (cfg : ClientConfig) {s : RTState α}
    (h : RTReachable cfg s) : rtAccounted s := by
  induction h with
  | refl => simp [rtAccounted, RTState.init]
  | tail _ step ih =>
    cases step with
    | log e s => exact rtAccounted_rtLog cfg e ih
    | flush ok s => exact rtAccounted_flushAttempt cfg ok ih
    | cleanup ok s => exact rtAccounted_rtCleanup cfg ok ih

/-- C1: no silent drop.  In every reachable state of a `RemoteTransport`
(remote delivery gated by `enableRemote` inside `rtLog`), every accepted
entry is in the queue, already delivered to the remote endpoint, or
already emitted to the console fallback channel — the invariant form of
"no entry is ever dropped without being emitted to the fallback
channel". -/
theorem c1_no_silent_drop {α : Type} (cfg : ClientConfig) (s : RTState α)
    (h : RTReachable cfg s) :
    ∀ e ∈ s.accepted, e ∈ s.queue ∨ e ∈ s.delivered ∨ e ∈ s.fallback := by
  intro e he
  have hacc := rtAccounted_of_reachable cfg h
  unfold rtAccounted at hacc
  have : e ∈ (s.queue : Multiset α) + s.delivered + s.fallback := by
    rw [hacc]
    exact Multiset.mem_coe.mpr he
  rcases Multiset.mem_add.mp this with hqd | hf
  · rcases Multiset.mem_add.mp hqd with hq | hd
    · exact Or.inl (Multiset.mem_coe.mp hq)
    · exact Or.inr (Or.inl (Multiset.mem_coe.mp hd))
  · exact Or.inr (Or.inr (Multiset.mem_coe.mp hf))

/-- Witness for C1: a concrete two-step run (log an entry, then a failed
flush under the default config) in which the entry is still accounted
for. -/
theorem c1_no_silent_drop_witness :
    (7 : Nat) ∈ (flushAttempt ⟨true, none, none, none⟩ false
        (rtLog ⟨true, none, none, none⟩ 7 RTState.init)).queue ∨
    (7 : Nat) ∈ (flushAttempt ⟨true, none, none, none⟩ false
        (rtLog ⟨true, none, none, none⟩ 7 RTState.init)).delivered ∨
    (7 : Nat) ∈ (flushAttempt ⟨true, none, none, none⟩ false
        (rtLog ⟨true, none, none, none⟩ 7 RTState.init)).fallback := by
  have hreach : RTReachable ⟨true, none, none, none⟩
      (flushAttempt ⟨true, none, none, none⟩ false
        (rtLog ⟨true, none, none, none⟩ 7 RTState.init)) :=
    Relation.ReflTransGen.tail
      (Relation.ReflTransGen.single (RTStep.log 7 RTState.init))
      (RTStep.flush false _)
  exact c1_no_silent_drop _ _ hreach 7 (by decide)

/-! ## Claim C2: retry/backoff behaviour -/

theorem flushAttempt_fail_requeue {α : Type} (cfg : ClientConfig) {s : RTState α}
    (hne : ¬ s.queue.isEmpty = true) (hrc : s.retryCount + 1 ≤ cfg.maxR) :
    flushAttempt cfg false s =
      { s with retryCount := s.retryCount + 1,
               retryDelays := s.retryDelays ++ [2 ^ (s.retryCount + 1) * 1000] } := by
  unfold flushAttempt
  rw [if_neg hne, if_neg (by simp), if_pos hrc]
  simp [List.take_append_drop]

theorem flushAttempt_fail_drop {α : Type} (cfg : ClientConfig) {s : RTState α}
    (hne : ¬ s.queue.isEmpty = true) (hrc : ¬ s.retryCount + 1 ≤ cfg.maxR) :
    flushAttempt cfg false s =
      { s with queue := s.queue.drop cfg.batch, retryCount := s.retryCount + 1,
               fallback := s.fallback ++ s.queue.take cfg.batch } := by
  unfold flushAttempt
  rw [if_neg hne, if_neg (by simp), if_neg hrc]

/-- `n` consecutive failing flush attempts. -/
def failN {α : Type} (cfg : ClientConfig) : Nat → RTState α → RTState α
  | 0, s => s
  | n + 1, s => failN cfg n (flushAttempt cfg false s)

/-- The effective batch size is always positive (`|| 50` turns both a
missing option and `0` into 50). -/
theorem ClientConfig.one_le_batch (cfg : ClientConfig) : 1 ≤ cfg.batch := by
  cases h : cfg.batchSize with
  | none => simp [ClientConfig.batch, h]
  | some n =>
    by_cases h0 : n = 0
    · simp [ClientConfig.batch, h, h0]
    · simp [ClientConfig.batch, h, h0]
      omega

/-- Claim C2 as stated by the spec: with `maxRetries = 3`, after a batch
suffers 4 consecutive flush failures (3 backoff retries, then fallback),
the retry counter resets to 0 so the next failing batch gets a fresh
retry budget. -/
def ClaimC2 : Prop :=
  ∀ (cfg : ClientConfig) (s : RTState Nat),
    cfg.maxR = 3 → s.retryCount = 0 → s.queue ≠ [] →
    s.queue.length ≤ cfg.batch →
    (failN cfg 4 s).retryCount = 0

/-- C2 counterexample: in the `catch` branch that abandons the batch to
the fallback channel there is no `this.retryCount = 0`; the counter is
only reset on a *successful* flush.  Concretely: default config
(`maxRetries` absent, hence 3), one queued entry, 4 failures — the final
retry counter is 4, not 0. -/
theorem c2_counterexample : ¬ ClaimC2 := by
  intro h
  have hx := h ⟨true, none, none, some 3⟩ (rtLog ⟨true, none, none, some 3⟩ 1 RTState.init)
    (by decide) (by decide) (by decide) (by decide)
  exact absurd hx (by decide)

/-- C2 (amended): with `maxRetries = 3` and a single queued batch,
4 consecutive flush failures produce exactly 3 backoff retries with
`setTimeout` delays of 2000, 4000 and 8000 ms (`2^retryCount` seconds
after each increment), then the batch is emitted to the fallback channel
— but the retry counter stays at 4 (it is reset only by a successful
flush), so a subsequent failing batch is abandoned to the fallback
channel immediately, with no retries and no new backoff delay. -/
theorem c2_retry_backoff_counter_not_reset {α : Type} (cfg : ClientConfig) (s : RTState α)
    (hmax : cfg.maxR = 3) (hrc0 : s.retryCount = 0) (hne : ¬ s.queue.isEmpty = true)
    (hlen : s.queue.length ≤ cfg.batch) (hdel : s.retryDelays = []) :
    (failN cfg 4 s).retryDelays = [2000, 4000, 8000] ∧
    (failN cfg 4 s).fallback = s.fallback ++ s.queue ∧
    (failN cfg 4 s).delivered = s.delivered ∧
    (failN cfg 4 s).retryCount = 4 ∧
    (cfg.enableRemote = true → ∀ e : α,
      (flushAttempt cfg false (rtLog cfg e (failN cfg 4 s))).fallback
          = s.fallback ++ s.queue ++ [e] ∧
      (flushAttempt cfg false (rtLog cfg e (failN cfg 4 s))).retryDelays
          = [2000, 4000, 8000]) := by
  have e1 : flushAttempt cfg false s =
      { s with retryCount := 1, retryDelays := s.retryDelays ++ [2000] } := by
    have := flushAttempt_fail_requeue cfg (s := s) hne (by omega)
    rw [this, hrc0]
    norm_num
  have e2 : flushAttempt cfg false
      { s with retryCount := 1, retryDelays := s.retryDelays ++ [2000] } =
      { s with retryCount := 2, retryDelays := (s.retryDelays ++ [2000]) ++ [4000] } := by
    have := flushAttempt_fail_requeue cfg
      (s := { s with retryCount := 1, retryDelays := s.retryDelays ++ [2000] })
      hne (by simp; omega)
    rw [this]
    norm_num
  have e3 : flushAttempt cfg false
      { s with retryCount := 2, retryDelays := (s.retryDelays ++ [2000]) ++ [4000] } =
      { s with retryCount := 3,
               retryDelays := ((s.retryDelays ++ [2000]) ++ [4000]) ++ [8000] } := by
    have := flushAttempt_fail_requeue cfg
      (s := { s with retryCount := 2, retryDelays := (s.retryDelays ++ [2000]) ++ [4000] })
      hne (by simp; omega)
    rw [this]
    norm_num
  have e4 : flushAttempt cfg false
      { s with retryCount := 3,
               retryDelays := ((s.retryDelays ++ [2000]) ++ [4000]) ++ [8000] } =
      { s with queue := s.queue.drop cfg.batch, retryCount := 4,
               retryDelays := ((s.retryDelays ++ [2000]) ++ [4000]) ++ [8000],
               fallback := s.fallback ++ s.queue.take cfg.batch } := by
    have := flushAttempt_fail_drop cfg
      (s := { s with retryCount := 3,
                     retryDelays := ((s.retryDelays ++ [2000]) ++ [4000]) ++ [8000] })
      hne (by simp; omega)
    rw [this]
  have h4 : failN cfg 4 s =
      { s with queue := s.queue.drop cfg.batch, retryCount := 4,
               retryDelays := ((s.retryDelays ++ [2000]) ++ [4000]) ++ [8000],
               fallback := s.fallback ++ s.queue.take cfg.batch } := by
    show failN cfg 0 (flushAttempt cfg false (flushAttempt cfg false
      (flushAttempt cfg false (flushAttempt cfg false s)))) = _
    rw [e1, e2, e3, e4]
    rfl
  have htake : s.queue.take cfg.batch = s.queue := List.take_of_length_le hlen
  have hdrop : s.queue.drop cfg.batch = [] := List.drop_eq_nil_of_le hlen
  refine ⟨?_, ?_, ?_, ?_, ?_⟩
  · rw [h4]; simp [hdel]
  · rw [h4]; simp [htake]
  · rw [h4]
  · rw [h4]
  · intro hrem e
    have hlog : rtLog cfg e (failN cfg 4 s) =
        { s with queue := s.queue.drop cfg.batch ++ [e], retryCount := 4,
                 retryDelays := ((s.retryDelays ++ [2000]) ++ [4000]) ++ [8000],
                 fallback := s.fallback ++ s.queue.take cfg.batch,
                 accepted := s.accepted ++ [e] } := by
      rw [h4]
      unfold rtLog
      rw [if_pos hrem]
    have e5 := flushAttempt_fail_drop cfg
      (s := { s with queue := s.queue.drop cfg.batch ++ [e], retryCount := 4,
                     retryDelays := ((s.retryDelays ++ [2000]) ++ [4000]) ++ [8000],
                     fallback := s.fallback ++ s.queue.take cfg.batch,
                     accepted := s.accepted ++ [e] })
      (by simp [hdrop]) (by simp; omega)
    rw [hlog, e5]
    have hbatch := cfg.one_le_batch
    constructor
    · dsimp only
      rw [show (s.queue.drop cfg.batch ++ [e]).take cfg.batch = [e] from by
        rw [hdrop]; exact List.take_of_length_le (by simpa using hbatch)]
      rw [htake]
    · simp [hdel]

/-- Witness for C2 (amended) at the default config with `maxRetries = 3`
explicit and a single queued entry. -/
theorem c2_retry_backoff_counter_not_reset_witness :
    (failN ⟨true, none, none, some 3⟩ 4
        (rtLog ⟨true, none, none, some 3⟩ (1 : Nat) RTState.init)).retryDelays
      = [2000, 4000, 8000] ∧
    (failN ⟨true, none, none, some 3⟩ 4
        (rtLog ⟨true, none, none, some 3⟩ (1 : Nat) RTState.init)).retryCount = 4 := by
  have h := c2_retry_backoff_counter_not_reset ⟨true, none, none, some 3⟩
    (rtLog ⟨true, none, none, some 3⟩ (1 : Nat) RTState.init)
    (by decide) (by decide) (by decide) (by decide) (by decide)
  exact ⟨h.1, h.2.2.2.1⟩

/-! ## Claim C5: `cleanup()` -/

/-- Claim C5 as stated by the spec: `cleanup()` cancels the recurring
timer and performs one final flush attempt that drains *all* remaining
queued entries (for every queue length at teardown, including lengths
greater than `batchSize`). -/
def ClaimC5 : Prop :=
  ∀ (cfg : ClientConfig) (s : RTState Nat),
    (rtCleanup cfg true s).timerArmed = false ∧ (rtCleanup cfg true s).queue = []

/-- C5 counterexample: `cleanup()` awaits a single `flush()`, which
splices off at most `batchSize` entries.  With `batchSize = 1` and two
queued entries, one entry remains queued (and the timer is cancelled, so
nothing will ever deliver it). -/
theorem c5_counterexample : ¬ ClaimC5 := by
  intro h
  have hx := (h ⟨true, some 1, none, none⟩
    (rtLog ⟨true, some 1, none, none⟩ 2
      (rtLog ⟨true, some 1, none, none⟩ 1 RTState.init))).2
  exact absurd hx (by decide)

/-- C5 (amended): `cleanup()` cancels the recurring timer and performs
one final awaited flush attempt, which drains at most one batch — on a
successful final flush the queue is left with `queue.drop batchSize`
(empty only when at most `batchSize` entries remained) and that batch is
delivered. -/
theorem c5_cleanup_cancels_timer_drains_one_batch {α : Type}
    (cfg : ClientConfig) (s : RTState α) :
    (rtCleanup cfg true s).timerArmed = false ∧
    (rtCleanup cfg true s).queue = s.queue.drop cfg.batch ∧
    (rtCleanup cfg true s).delivered = s.delivered ++ s.queue.take cfg.batch := by
  unfold rtCleanup flushAttempt
  dsimp only
  by_cases hq : s.queue.isEmpty
  · rw [if_pos hq]
    have hnil : s.queue = [] := List.isEmpty_iff.mp hq
    simp [hnil]
  · rw [if_neg hq, if_pos rfl]
    exact ⟨rfl, rfl, rfl⟩

/-! ## Claim C4: flush overlap (interleaved model)

Finer-grained model of `flush()` in which the suspension at `await
fetch(...)` is explicit: `flushStart` is the *synchronous* prefix of
`flush()` (the empty-queue early return check and the
`this.queue.splice(0, batchSize)` that removes the head batch and
dispatches it), and the three `...End` labels are the resumptions after
the response arrives (the success path, and the two `catch` paths).
Between a `flushStart` and its matching end, the batch sits in
`inflight`.  The source's `flush()` has no in-flight flag: its only
guard is the empty-queue check, so nothing prevents a second flush from
starting while one is outstanding. -/

structure RTAsyncState (α : Type) where
  queue : List α
  inflight : List (List α)
  retryCount : Nat
  delivered : List α
  fallback : List α
  accepted : List α
deriving DecidableEq, Repr

def RTAsyncState.init {α : Type} : RTAsyncState α :=
  { queue := [], inflight := [], retryCount := 0,
    delivered := [], fallback := [], accepted := [] }

/-- Step labels for the interleaved model. -/
inductive RTLabel (α : Type) where
  | log (e : α)
  | flushStart
  | flushOkEnd
  | flushFailRequeue
  | flushFallback
deriving DecidableEq, Repr

/-- Interleaved step relation of one `RemoteTransport` instance. -/
inductive RTAsyncStep {α : Type} (cfg : ClientConfig) :
    RTLabel α → RTAsyncState α → RTAsyncState α → Prop where
  | log (e : α) (s : RTAsyncState α) (h : cfg.enableRemote = true) :
      RTAsyncStep cfg (.log e) s
        { s with queue := s.queue ++ [e], accepted := s.accepted ++ [e] }
  | flushStart (s : RTAsyncState α) (h : ¬ s.queue.isEmpty = true) :
      RTAsyncStep cfg .flushStart s
        { s with queue := s.queue.drop cfg.batch,
                 inflight := s.inflight ++ [s.queue.take cfg.batch] }
  | flushOkEnd (s : RTAsyncState α) (pre : List (List α)) (b : List α)
      (post : List (List α)) (h : s.inflight = pre ++ b :: post) :
      RTAsyncStep cfg .flushOkEnd s
        { s with inflight := pre ++ post, delivered := s.delivered ++ b,
                 retryCount := 0 }
  | flushFailRequeue (s : RTAsyncState α) (pre : List (List α)) (b : List α)
      (post : List (List α)) (h : s.inflight = pre ++ b :: post)
      (hrc : s.retryCount + 1 ≤ cfg.maxR) :
      RTAsyncStep cfg .flushFailRequeue s
        { s with inflight := pre ++ post, queue := b ++ s.queue,
                 retryCount := s.retryCount + 1 }
  | flushFallback (s : RTAsyncState α) (pre : List (List α)) (b : List α)
      (post : List (List α)) (h : s.inflight = pre ++ b :: post)
      (hrc : ¬ s.retryCount + 1 ≤ cfg.maxR) :
      RTAsyncStep cfg .flushFallback s
        { s with inflight := pre ++ post, fallback := s.fallback ++ b,
                 retryCount := s.retryCount + 1 }

def RTAsyncReachable {α : Type} (cfg : ClientConfig) (s : RTAsyncState α) : Prop :=
  Relation.ReflTransGen (fun a b => ∃ l, RTAsyncStep cfg l a b) RTAsyncState.init s

/-- Claim C4 as stated by the spec: a flush never starts while a
previous flush for the same instance is outstanding (an in-flight flag
is checked before dispatch). -/
def ClaimC4 : Prop :=
  ∀ (cfg : ClientConfig) (s t : RTAsyncState Nat),
    RTAsyncReachable cfg s → RTAsyncStep cfg .flushStart s t → s.inflight = []

/-- The configuration of the C4 scenario: remote enabled, `batchSize = 1`. -/
def c4Cfg : ClientConfig :=
  { enableRemote := true, batchSize := some 1, flushInterval := none, maxRetries := none }

/-- The overlap state of the C4 scenario: batch `[1]` dispatched and
outstanding, entry `2` queued afterwards. -/
def c4Overlap : RTAsyncState Nat :=
  { queue := [2], inflight := [[1]], retryCount := 0,
    delivered := [], fallback := [], accepted := [1, 2] }

theorem c4Overlap_reachable : RTAsyncReachable c4Cfg c4Overlap := by
  have h1 : ∃ l, RTAsyncStep c4Cfg l RTAsyncState.init
      { queue := [1], inflight := [], retryCount := 0,
        delivered := [], fallback := [], accepted := [1] } :=
    ⟨RTLabel.log 1, RTAsyncStep.log 1 RTAsyncState.init rfl⟩
  have h2 : ∃ l, RTAsyncStep c4Cfg l
      { queue := [1], inflight := [], retryCount := 0,
        delivered := [], fallback := [], accepted := [1] }
      { queue := [], inflight := [[1]], retryCount := 0,
        delivered := [], fallback := [], accepted := [1] } :=
    ⟨RTLabel.flushStart, RTAsyncStep.flushStart _ (by decide)⟩
  have h3 : ∃ l, RTAsyncStep c4Cfg l
      { queue := [], inflight := [[1]], retryCount := 0,
        delivered := [], fallback := [], accepted := [1] } c4Overlap :=
    ⟨RTLabel.log 2, RTAsyncStep.log 2 _ rfl⟩
  exact Relation.ReflTransGen.tail
    (Relation.ReflTransGen.tail (Relation.ReflTransGen.single h1) h2) h3

/-- C4 counterexample: with `batchSize = 1`, after `log 1`, a flush
start (batch `[1]` now in flight) and `log 2`, the queue is non-empty
again, so `flush()`'s only guard (`if (!this.queue.length) return`)
passes and a second flush starts while the first is still outstanding —
there is no in-flight flag in the code. -/
theorem c4_counterexample : ¬ ClaimC4 := by
  intro h
  have hflag := h c4Cfg c4Overlap _ c4Overlap_reachable
    (RTAsyncStep.flushStart _ (by decide))
  exact absurd hflag (by decide)

/-- Accounting invariant of the interleaved model: accepted entries are
partitioned among the queue, the in-flight batches, the delivered
entries and the fallback entries. -/
def rtaAccounted {α : Type} (s : RTAsyncState α) : Prop :=
  (s.queue : Multiset α) + (s.inflight.map Multiset.ofList).sum
      + s.delivered + s.fallback = s.accepted

theorem rtaAccounted_step {α : Type} {cfg : ClientConfig} {l : RTLabel α}
    {a b : RTAsyncState α} (hs : RTAsyncStep cfg l a b) (ih : rtaAccounted a) :
    rtaAccounted b := by
  cases hs with
  | log e s hrem =>
    unfold rtaAccounted at ih ⊢
    dsimp only
    simp only [← Multiset.coe_add]
    rw [← ih]
    abel
  | flushStart s hq =>
    unfold rtaAccounted at ih ⊢
    dsimp only
    have hsplit : (a.queue.take cfg.batch : Multiset α)
        + (a.queue.drop cfg.batch : Multiset α) = (a.queue : Multiset α) := by
      rw [Multiset.coe_add, Multiset.coe_eq_coe, List.take_append_drop]
    simp only [List.map_append, List.sum_append, List.map_cons, List.sum_cons,
      List.map_nil, List.sum_nil]
    rw [← ih, ← hsplit]
    abel
  | flushOkEnd s pre bt post hin =>
    unfold rtaAccounted at ih ⊢
    dsimp only
    rw [hin] at ih
    simp only [List.map_append, List.sum_append, List.map_cons, List.sum_cons] at ih ⊢
    simp only [← Multiset.coe_add]
    rw [← ih]
    abel
  | flushFailRequeue s pre bt post hin hrc =>
    unfold rtaAccounted at ih ⊢
    dsimp only
    rw [hin] at ih
    simp only [List.map_append, List.sum_append, List.map_cons, List.sum_cons] at ih ⊢
    simp only [← Multiset.coe_add]
    rw [← ih]
    abel
  | flushFallback s pre bt post hin hrc =>
    unfold rtaAccounted at ih ⊢
    dsimp only
    rw [hin] at ih
    simp only [List.map_append, List.sum_append, List.map_cons, List.sum_cons] at ih ⊢
    simp only [← Multiset.coe_add]
    rw [← ih]
    abel

theorem rtaAccounted_of_reachable {α : Type} (cfg : ClientConfig) {s : RTAsyncState α}
    (h : RTAsyncReachable cfg s) : rtaAccounted s := by
  induction h with
  | refl => simp [rtaAccounted, RTAsyncState.init]
  | tail hprev step ih =>
    obtain ⟨l, hs⟩ := step
    exact rtaAccounted_step hs ih

/-- C4 (amended): the code has no in-flight flag, so flushes *can*
overlap (see the counterexample); nevertheless the same batch is never
double-sent, because `splice` removes the head batch from the queue
synchronously before dispatch: in every reachable state of the
interleaved model the accepted entries are partitioned — as a multiset,
with no duplication — among the queue, the outstanding in-flight
batches, the delivered entries and the fallback entries, so every
entry is removed from the queue by exactly one flush start and sits in
at most one outstanding batch. -/
theorem c4_no_double_send {α : Type} (cfg : ClientConfig) (s : RTAsyncState α)
    (h : RTAsyncReachable cfg s) : rtaAccounted s :=
  rtaAccounted_of_reachable cfg h

/-- Witness for C4 (amended) at the concrete overlapping-flush state of
the counterexample trace. -/
theorem c4_no_double_send_witness : rtaAccounted c4Overlap :=
  c4_no_double_send c4Cfg c4Overlap c4Overlap_reachable

/-! ## Logger: level filtering and transport fan-out (`src/Logger.ts`)

The private `log` method is

```js
private log(level, message, context?, error?, duration?): void {
  const entry = this.createLogEntry(level, message, context, error, duration);
  this.transports.forEach(transport => transport.log(entry));
}
```

with no `try`/`catch` around the transport invocations, and the public
level methods guard it with `this.config.level` checks. -/

/-- A log entry (`LogEntry`, `src/types.ts`).  The `Error` object is
abstracted by its message; `uuid`-generated request ids and timestamps
are passed in explicitly by the functions that create entries. -/
structure LogEntry where
  level : LogLevel
  message : String
  context : Obj
  errorMsg : Option String
  duration : Option Int
deriving DecidableEq, Repr

/-- `createLogEntry(level, message, context?, error?, duration?)`:
the entry's context is `{requestId: uuidv4(), ...context}` (the caller's
context wins on collision); `uuid` stands for the generated `uuidv4()`. -/
def createLogEntry (uuid : String) (level : LogLevel) (message : String)
    (context : Obj) (errorMsg : Option String) (duration : Option Int) : LogEntry :=
  { level := level, message := message,
    context := mergeCtx [("requestId", .str uuid)] context,
    errorMsg := errorMsg, duration := duration }

/-- A registered transport, reduced to its `log` method; `Except.error m`
models the invocation throwing `m`. -/
structure Transport where
  logFn : LogEntry → Except String Unit

/-- `this.transports.forEach(transport => transport.log(entry))`, with
`i` the index of the first transport in the sublist.  A `forEach` body
that throws terminates the iteration and the exception propagates, so
the result is the list of invoked transport indices (in registration
order) together with the propagated exception, if any. -/
def runTransports : List Transport → LogEntry → Nat → List Nat × Option String
  | [], _, _ => ([], none)
  | t :: rest, e, i =>
      match t.logFn e with
      | .ok _ =>
          let r := runTransports rest e (i + 1)
          (i :: r.1, r.2)
      | .error m => ([i], some m)

/-- Guard of `debug`: `if (this.config.level === LogLevel.DEBUG)`. -/
def debugGuard (cfg : LogLevel) : Bool := cfg == .debug

/-- Guard of `info`: `[LogLevel.DEBUG, LogLevel.INFO].includes(this.config.level)`. -/
def infoGuard (cfg : LogLevel) : Bool := cfg == .debug || cfg == .info

/-- Guard of `warn`:
`[LogLevel.DEBUG, LogLevel.INFO, LogLevel.WARN].includes(this.config.level)`. -/
def warnGuard (cfg : LogLevel) : Bool := cfg == .debug || cfg == .info || cfg == .warn

/-- Dispatch decision of the four public level methods (`error` calls
the private `log` unconditionally). -/
def dispatchB (cfg : LogLevel) : LogLevel → Bool
  | .debug => debugGuard cfg
  | .info => infoGuard cfg
  | .warn => warnGuard cfg
  | .error => true

/-- The four per-method guards amount to the threshold test
`config.level ≤ entry level` in the order debug < info < warn < error. -/
theorem dispatchB_iff (cfg lvl : LogLevel) :
    dispatchB cfg lvl = true ↔ cfg.idx ≤ lvl.idx := by
  cases cfg <;> cases lvl <;>
    simp [dispatchB, debugGuard, infoGuard, warnGuard, LogLevel.idx]

/-- One public level-method call (`debug`/`info`/`warn`/`error`, chosen
by `lvl`): the central level filter, then `createLogEntry` and the
transport fan-out.  Result: the invoked transport indices, the exception
propagated to the caller (if a transport threw), and the entry handed to
the transports (`none` when the entry was filtered out). -/
def levelCall (cfg : LogLevel) (ts : List Transport) (lvl : LogLevel)
    (message : String) (context : Obj) (errorMsg : Option String)
    (uuid : String) : List Nat × Option String × Option LogEntry :=
  if dispatchB cfg lvl then
    let e := createLogEntry uuid lvl message context errorMsg none
    let r := runTransports ts e 0
    (r.1, r.2, some e)
  else ([], none, none)

theorem runTransports_all_ok (ts : List Transport) (e : LogEntry) (i : Nat)
    (h : ∀ t ∈ ts, t.logFn e = .ok ()) :
    runTransports ts e i = (List.range' i ts.length, none) := by
  induction ts generalizing i with
  | nil => simp [runTransports]
  | cons t rest ih =>
    have ht : t.logFn e = .ok () := h t (by simp)
    have hrest : ∀ u ∈ rest, u.logFn e = .ok () := fun u hu => h u (by simp [hu])
    unfold runTransports
    rw [ht, ih (i + 1) hrest]
    simp [List.range'_succ]

theorem runTransports_throw (pre : List Transport) (bad : Transport)
    (rest : List Transport) (e : LogEntry) (m : String) (i : Nat)
    (hpre : ∀ t ∈ pre, t.logFn e = .ok ()) (hbad : bad.logFn e = .error m) :
    runTransports (pre ++ bad :: rest) e i
      = (List.range' i (pre.length + 1), some m) := by
  induction pre generalizing i with
  | nil =>
    show runTransports (bad :: rest) e i = _
    unfold runTransports
    rw [hbad]
    simp [List.range'_succ]
  | cons t tl ih =>
    have ht : t.logFn e = .ok () := hpre t (by simp)
    have htl : ∀ u ∈ tl, u.logFn e = .ok () := fun u hu => hpre u (by simp [hu])
    show runTransports (t :: (tl ++ bad :: rest)) e i = _
    unfold runTransports
    rw [ht, ih (i + 1) htl]
    simp [List.range'_succ]

/-- Claim C3 as stated by the spec: for every level-method call that
passes filtering, every registered transport is invoked — a transport
whose `log` throws does not prevent subsequent transports from receiving
the entry — and the call never throws to its caller. -/
def ClaimC3 : Prop :=
  ∀ (cfg : LogLevel) (ts : List Transport) (lvl : LogLevel) (msg : String)
    (ctx : Obj) (err : Option String) (uuid : String),
    dispatchB cfg lvl = true →
    (levelCall cfg ts lvl msg ctx err uuid).2.1 = none ∧
    ∀ i < ts.length, i ∈ (levelCall cfg ts lvl msg ctx err uuid).1

/-- C3 counterexample: two transports, the first throws `"boom"`.  The
`forEach` in the private `log` has no `try`/`catch`, so the second
transport is never invoked and the exception propagates out of the
level-method call. -/
theorem c3_counterexample : ¬ ClaimC3 := by
  intro h
  have hx := h .info [⟨fun _ => .error "boom"⟩, ⟨fun _ => .ok ()⟩] .info
    "m" [] none "u" rfl
  have hval : (levelCall .info [⟨fun _ => .error "boom"⟩, ⟨fun _ => .ok ()⟩] .info
      "m" [] none "u").2.1 = some "boom" := rfl
  exact Option.noConfusion (hx.1.symm.trans hval)

/-- C3 (amended): transports are invoked in registration order, but an
invocation is *not* isolated: when every transport returns normally all
of them receive the entry and nothing propagates, while a transport that
throws aborts the fan-out — the transports registered after it do not
receive the entry — and the exception propagates to the caller of the
level method. -/
theorem c3_throwing_transport_aborts_fanout :
    (∀ (cfg : LogLevel) (ts : List Transport) (lvl : LogLevel) (msg : String)
      (ctx : Obj) (err : Option String) (uuid : String),
      dispatchB cfg lvl = true →
      (∀ t ∈ ts, t.logFn (createLogEntry uuid lvl msg ctx err none) = .ok ()) →
      (levelCall cfg ts lvl msg ctx err uuid).1 = List.range ts.length ∧
      (levelCall cfg ts lvl msg ctx err uuid).2.1 = none) ∧
    (∀ (cfg : LogLevel) (pre : List Transport) (bad : Transport)
      (rest : List Transport) (lvl : LogLevel) (msg : String) (ctx : Obj)
      (err : Option String) (uuid : String) (m : String),
      dispatchB cfg lvl = true →
      (∀ t ∈ pre, t.logFn (createLogEntry uuid lvl msg ctx err none) = .ok ()) →
      bad.logFn (createLogEntry uuid lvl msg ctx err none) = .error m →
      (levelCall cfg (pre ++ bad :: rest) lvl msg ctx err uuid).1
          = List.range (pre.length + 1) ∧
      (levelCall cfg (pre ++ bad :: rest) lvl msg ctx err uuid).2.1 = some m) := by
  constructor
  · intro cfg ts lvl msg ctx err uuid hd hok
    unfold levelCall
    rw [if_pos hd]
    dsimp only
    rw [runTransports_all_ok ts _ 0 hok]
    simp [List.range_eq_range']
  · intro cfg pre bad rest lvl msg ctx err uuid m hd hok hbad
    unfold levelCall
    rw [if_pos hd]
    dsimp only
    rw [runTransports_throw pre bad rest _ m 0 hok hbad]
    simp [List.range_eq_range']

/-- Witness for C3 (amended): both conjuncts applied at concrete
transports — two well-behaved transports, and a throwing transport
followed by a well-behaved one. -/
theorem c3_throwing_transport_aborts_fanout_witness :
    ((levelCall .info [⟨fun _ => .ok ()⟩, ⟨fun _ => .ok ()⟩] .info
        "m" [] none "u").1 = List.range 2 ∧
      (levelCall .info [⟨fun _ => .ok ()⟩, ⟨fun _ => .ok ()⟩] .info
        "m" [] none "u").2.1 = none) ∧
    ((levelCall .info ([] ++ (⟨fun _ => .error "boom"⟩ : Transport)
          :: [⟨fun _ => .ok ()⟩]) .info "m" [] none "u").1 = List.range 1 ∧
      (levelCall .info ([] ++ (⟨fun _ => .error "boom"⟩ : Transport)
          :: [⟨fun _ => .ok ()⟩]) .info "m" [] none "u").2.1 = some "boom") :=
  ⟨c3_throwing_transport_aborts_fanout.1 .info
      [⟨fun _ => .ok ()⟩, ⟨fun _ => .ok ()⟩] .info "m" [] none "u" rfl
      (by intro t ht; fin_cases ht <;> rfl),
    c3_throwing_transport_aborts_fanout.2 .info [] ⟨fun _ => .error "boom"⟩
      [⟨fun _ => .ok ()⟩] .info "m" [] none "u" "boom" rfl
      (by intro t ht; simp at ht) rfl⟩

/-- C6: central level filtering.  An entry strictly below the configured
threshold (in the order debug < info < warn < error) is dropped before
the fan-out — no transport is invoked and no entry is created — and an
entry at or above the threshold is handed to every registered transport
in registration order (given that the transports return normally; a
throwing transport is claim C3's concern). -/
theorem c6_level_filtering (cfg : LogLevel) (ts : List Transport) (lvl : LogLevel)
    (msg : String) (ctx : Obj) (err : Option String) (uuid : String) :
    (lvl.idx < cfg.idx →
      (levelCall cfg ts lvl msg ctx err uuid).1 = [] ∧
      (levelCall cfg ts lvl msg ctx err uuid).2.2 = none) ∧
    (cfg.idx ≤ lvl.idx →
      (∀ t ∈ ts, t.logFn (createLogEntry uuid lvl msg ctx err none) = .ok ()) →
      (levelCall cfg ts lvl msg ctx err uuid).1 = List.range ts.length) := by
  constructor
  · intro hlt
    have hd : dispatchB cfg lvl = false := by
      cases hcase : dispatchB cfg lvl with
      | false => rfl
      | true => exact absurd ((dispatchB_iff cfg lvl).mp hcase) (by omega)
    unfold levelCall
    rw [if_neg (by simp [hd])]
    exact ⟨rfl, rfl⟩
  · intro hge hok
    have hd : dispatchB cfg lvl = true := (dispatchB_iff cfg lvl).mpr hge
    unfold levelCall
    rw [if_pos hd]
    dsimp only
    rw [runTransports_all_ok ts _ 0 hok]
    simp [List.range_eq_range']

/-- Witness for C6: config level `warn`; an `info` entry is dropped with
no transport invoked, and a `warn` entry reaches both transports. -/
theorem c6_level_filtering_witness :
    ((levelCall .warn [⟨fun _ => .ok ()⟩, ⟨fun _ => .ok ()⟩] .info
        "m" [] none "u").1 = [] ∧
      (levelCall .warn [⟨fun _ => .ok ()⟩, ⟨fun _ => .ok ()⟩] .info
        "m" [] none "u").2.2 = none) ∧
    (levelCall .warn [⟨fun _ => .ok ()⟩, ⟨fun _ => .ok ()⟩] .warn
        "m" [] none "u").1 = List.range 2 :=
  ⟨(c6_level_filtering .warn [⟨fun _ => .ok ()⟩, ⟨fun _ => .ok ()⟩] .info
      "m" [] none "u").1 (by decide),
    (c6_level_filtering .warn [⟨fun _ => .ok ()⟩, ⟨fun _ => .ok ()⟩] .warn
      "m" [] none "u").2 (by decide) (by intro t ht; fin_cases ht <;> rfl)⟩

/-! ## Claim C8: `time(label, fn, context?)`

```js
public async time(message, fn, context?) {
  const timer = this.startTimer();
  try {
    const result = await fn();
    const duration = timer();
    this.info(message, { ...context, duration });
    return result;
  } catch (error) {
    const duration = timer();
    this.error(message, error as Error, { ...context, duration });
    throw error;
  }
}
```

The awaited operation is modelled by its settled outcome `fn : Except ε ρ`
and the timer by the measured duration `d`.  An exception thrown by a
transport during the `this.info`/`this.error` call propagates instead of
the re-raise (`Sum.inr`); the wrapped operation's own failure re-raises
as `Sum.inl e`. -/

def timeM {ε ρ : Type} (cfg : LogLevel) (ts : List Transport) (message : String)
    (context : Obj) (uuid : String) (d : Int) (errStr : ε → String)
    (fn : Except ε ρ) :
    Except (ε ⊕ String) ρ × (List Nat × Option String × Option LogEntry) :=
  match fn with
  | .ok v =>
      let r := levelCall cfg ts .info message
        (mergeCtx context [("duration", .num d)]) none uuid
      match r.2.1 with
      | some m => (.error (.inr m), r)
      | none => (.ok v, r)
  | .error e =>
      let r := levelCall cfg ts .error message
        (mergeCtx context [("duration", .num d)]) (some (errStr e)) uuid
      match r.2.1 with
      | some m => (.error (.inr m), r)
      | none => (.error (.inl e), r)

/-- C8: with transports that return normally, `time` re-raises the
wrapped operation's failure *exactly* (identity `Sum.inl e` untouched)
after emitting an error-level entry whose context carries the numeric
`duration` and whose error field is the captured failure; on success it
returns the operation's result unchanged and (when the configured level
admits `info`) emits an info entry with the duration.  The emission
happens in the same step, before control returns, matching "logged
before re-raising". -/
theorem c8_time_logs_duration_and_reraises {ε ρ : Type} (cfg : LogLevel)
    (ts : List Transport) (msg : String) (ctx : Obj) (uuid : String) (d : Int)
    (errStr : ε → String) (fn : Except ε ρ)
    (hok : ∀ t ∈ ts, ∀ e : LogEntry, t.logFn e = .ok ()) :
    (∀ e, fn = .error e →
      (timeM cfg ts msg ctx uuid d errStr fn).1 = .error (.inl e) ∧
      ∃ ent, (timeM cfg ts msg ctx uuid d errStr fn).2.2.2 = some ent ∧
        ent.level = .error ∧ getKey ent.context "duration" = some (.num d) ∧
        ent.errorMsg = some (errStr e)) ∧
    (∀ v, fn = .ok v → (timeM cfg ts msg ctx uuid d errStr fn).1 = .ok v) ∧
    (∀ v, fn = .ok v → cfg.idx ≤ LogLevel.info.idx →
      ∃ ent, (timeM cfg ts msg ctx uuid d errStr fn).2.2.2 = some ent ∧
        ent.level = .info ∧ getKey ent.context "duration" = some (.num d)) := by
  have hrun : ∀ (lvl : LogLevel) (em : Option String),
      runTransports ts (createLogEntry uuid lvl msg
        (mergeCtx ctx [("duration", .num d)]) em none) 0
        = (List.range' 0 ts.length, none) :=
    fun lvl em => runTransports_all_ok ts _ 0 (fun t ht => hok t ht _)
  have hcallErr : ∀ em, levelCall cfg ts .error msg
      (mergeCtx ctx [("duration", .num d)]) em uuid
      = (List.range' 0 ts.length, none,
          some (createLogEntry uuid .error msg
            (mergeCtx ctx [("duration", .num d)]) em none)) := by
    intro em
    unfold levelCall
    rw [if_pos (show dispatchB cfg LogLevel.error = true from rfl)]
    dsimp only
    rw [hrun .error em]
  have hdur : ∀ (lvl : LogLevel) (em : Option String),
      getKey (createLogEntry uuid lvl msg
        (mergeCtx ctx [("duration", .num d)]) em none).context "duration"
        = some (.num d) := by
    intro lvl em
    simp [createLogEntry, mergeCtx, getKey]
  refine ⟨?_, ?_, ?_⟩
  · intro e hfe
    subst hfe
    unfold timeM
    dsimp only
    rw [hcallErr (some (errStr e))]
    exact ⟨rfl, _, rfl, rfl, hdur .error (some (errStr e)), rfl⟩
  · intro v hfv
    subst hfv
    unfold timeM
    by_cases hd : dispatchB cfg .info = true
    · have hcall : levelCall cfg ts .info msg
          (mergeCtx ctx [("duration", .num d)]) none uuid
          = (List.range' 0 ts.length, none,
              some (createLogEntry uuid .info msg
                (mergeCtx ctx [("duration", .num d)]) none none)) := by
        unfold levelCall
        rw [if_pos hd]
        dsimp only
        rw [hrun .info none]
      dsimp only
      rw [hcall]
    · have hcall : levelCall cfg ts .info msg
          (mergeCtx ctx [("duration", .num d)]) none uuid = ([], none, none) := by
        unfold levelCall
        rw [if_neg hd]
      dsimp only
      rw [hcall]
  · intro v hfv hlvl
    subst hfv
    unfold timeM
    have hd : dispatchB cfg .info = true := (dispatchB_iff cfg .info).mpr hlvl
    have hcall : levelCall cfg ts .info msg
        (mergeCtx ctx [("duration", .num d)]) none uuid
        = (List.range' 0 ts.length, none,
            some (createLogEntry uuid .info msg
              (mergeCtx ctx [("duration", .num d)]) none none)) := by
      unfold levelCall
      rw [if_pos hd]
      dsimp only
      rw [hrun .info none]
    dsimp only
    rw [hcall]
    exact ⟨_, rfl, rfl, hdur .info none⟩

/-- Witness for C8 at a rejecting operation (`Error "boom"`), a benign
transport, default level `info`, duration 5 ms. -/
theorem c8_time_logs_duration_and_reraises_witness :
    (timeM (ε := String) (ρ := Nat) .info [⟨fun _ => .ok ()⟩] "op" [] "u" 5 id
        (.error "boom")).1 = .error (.inl "boom") ∧
    ∃ ent, (timeM (ε := String) (ρ := Nat) .info [⟨fun _ => .ok ()⟩] "op" [] "u" 5 id
        (.error "boom")).2.2.2 = some ent ∧
      ent.level = .error ∧ getKey ent.context "duration" = some (.num 5) ∧
      ent.errorMsg = some "boom" :=
  (c8_time_logs_duration_and_reraises .info [⟨fun _ => .ok ()⟩] "op" [] "u" 5 id
      (.error "boom") (by intro t ht e; fin_cases ht; rfl)).1 "boom" rfl

/-! ## Claim C7: `withContext` and the inherited bound format

```js
constructor(options = {}) {
  this.options = {
    ...
    format: options.format || this.defaultFormat.bind(this),
    defaultContext: options.defaultContext || {},
    environment: process.env.NODE_ENV || 'development',
    ...
  };
  this.defaultContext = { environment: this.options.environment,
                          ...this.options.defaultContext };
  ...
}
public withContext(context) {
  return new Logger({ ...this.options,
    defaultContext: { ...this.defaultContext, ...context } });
}
```

`withContext` spreads `this.options`, which includes `format` — the
parent's `defaultFormat` *bound to the parent* — so the derived logger's
structured console output is produced by `enrichLogEntry` of the logger
the format was originally bound to, reading *that* logger's
`defaultContext`.  A bound `defaultFormat` closure is modelled by the
`defaultContext` it reads (`storedFormat`); custom user formats are out
of scope of the claims.  The model is pure, so `withContext` trivially
leaves the parent value untouched. -/

structure LoggerM where
  structured : Bool
  environment : String
  storedDefaultContext : Obj
  storedFormat : Obj
  defaultContext : Obj
deriving DecidableEq, Repr

structure LoggerOptionsM where
  structured : Option Bool
  defaultContext : Obj
  format : Option Obj
deriving DecidableEq, Repr

/-- The Logger constructor.  `env` is the ambient `process.env.NODE_ENV`
value (`options.environment` is ignored by the constructor, which always
reads the environment variable).  `this.defaultContext` is
`{environment, ...options.defaultContext}`; when no format is supplied,
`format` defaults to `this.defaultFormat.bind(this)`, a closure reading
this logger's own `defaultContext`. -/
def mkLogger (env : String) (o : LoggerOptionsM) : LoggerM :=
  let dc := mergeCtx [("environment", .str env)] o.defaultContext
  { structured := o.structured.getD true,
    environment := env,
    storedDefaultContext := o.defaultContext,
    storedFormat := o.format.getD dc,
    defaultContext := dc }

/-- `withContext(context)`: a new Logger from the spread of the stored
options, with `defaultContext` replaced by the merge (extra wins). -/
def withContext (env : String) (L : LoggerM) (extra : Obj) : LoggerM :=
  mkLogger env
    { structured := some L.structured,
      defaultContext := mergeCtx L.defaultContext extra,
      format := some L.storedFormat }

/-- `enrichLogEntry` as executed by a bound `defaultFormat`: the
serialized context is `{...ownerDefaultContext, ...entry.context,
traceId, spanId, timestamp}`, where `traceId`/`spanId` are `undefined`
when no OpenTelemetry span is active. -/
def enrichContext (ownerCtx : Obj) (traceId spanId : Option String)
    (ts : String) (e : LogEntry) : Obj :=
  mergeCtx (mergeCtx ownerCtx e.context)
    [("traceId", traceId.elim Val.undef Val.str),
     ("spanId", spanId.elim Val.undef Val.str),
     ("timestamp", .str ts)]

/-- The context observable in the console transport's structured output:
`JSON.stringify(enrichLogEntry(entry))` evaluated through the logger's
stored (bound) format. -/
def consoleOutContext (L : LoggerM) (traceId spanId : Option String)
    (ts : String) (e : LogEntry) : Obj :=
  enrichContext L.storedFormat traceId spanId ts e

theorem getKey_append_of_some {a : Obj} (b : Obj) {k : String} {v : Val}
    (h : getKey a k = some v) : getKey (a ++ b) k = some v := by
  induction a with
  | nil => exact absurd h (by simp [getKey])
  | cons p rest ih =>
    obtain ⟨k0, v0⟩ := p
    have h2 : (if k0 = k then some v0 else getKey rest k) = some v := h
    by_cases hk : k0 = k
    · show (if k0 = k then some v0 else getKey (rest ++ b) k) = some v
      rw [if_pos hk] at h2 ⊢
      exact h2
    · show (if k0 = k then some v0 else getKey (rest ++ b) k) = some v
      rw [if_neg hk] at h2 ⊢
      exact ih h2

/-- Claim C7 as stated by the spec: entries emitted by the derived
logger carry `extra` merged over the parent's default context, the
merged keys being observable in the derived logger's (structured
console) output. -/
def ClaimC7 : Prop :=
  ∀ (env : String) (L : LoggerM) (extra : Obj) (k : String) (v : Val)
    (msg uuid ts : String),
    getKey extra k = some v →
    k ∉ (["requestId", "traceId", "spanId", "timestamp"] : List String) →
    jsonGet (consoleOutContext (withContext env L extra) none none ts
      (createLogEntry uuid .info msg [] none none)) k = some v

/-- C7 counterexample: a root logger with empty default context, derived
with `extra = {userId: "u"}`.  The derived logger inherits the parent's
*bound* `defaultFormat`, whose `enrichLogEntry` reads the parent's
`defaultContext` — so `userId` does not appear in the derived logger's
structured output. -/
theorem c7_counterexample : ¬ ClaimC7 := by
  intro h
  have hx := h "development" (mkLogger "development" ⟨none, [], none⟩)
    [("userId", .str "u")] "userId" (.str "u") "m" "u1" "t"
    (by decide) (by decide)
  exact absurd hx (by decide)

/-- C7 (amended): `withContext(extra)` returns a new Logger (the parent
value is untouched in this pure model) whose `defaultContext` field *is*
`extra` merged over the parent's, with `extra` winning on every key —
but the derived logger inherits the format closure bound to the original
logger, so its structured console output is enriched with that
ancestor's captured context, unchanged: the merged `extra` keys are
observable via the `context` getter, not in the emitted output. -/
theorem c7_withContext_merges_but_output_unchanged
    (env : String) (L : LoggerM) (extra : Obj) :
    (∀ (k : String) (v : Val), getKey extra k = some v →
      getKey (withContext env L extra).defaultContext k = some v) ∧
    (withContext env L extra).storedFormat = L.storedFormat ∧
    (∀ (traceId spanId : Option String) (ts : String) (e : LogEntry),
      consoleOutContext (withContext env L extra) traceId spanId ts e
        = consoleOutContext L traceId spanId ts e) := by
  refine ⟨?_, rfl, fun _ _ _ _ => rfl⟩
  intro k v h
  show getKey ((extra ++ L.defaultContext) ++ [("environment", Val.str env)]) k
    = some v
  exact getKey_append_of_some _ (getKey_append_of_some _ h)

/-- Witness for C7 (amended) at the counterexample's concrete logger:
`userId` is visible in the derived logger's `defaultContext`. -/
theorem c7_withContext_merges_but_output_unchanged_witness :
    getKey (withContext "development"
        (mkLogger "development" ⟨none, [], none⟩)
        [("userId", .str "u")]).defaultContext "userId" = some (.str "u") :=
  (c7_withContext_merges_but_output_unchanged "development"
      (mkLogger "development" ⟨none, [], none⟩) [("userId", .str "u")]).1
    "userId" (.str "u") (by decide)

end LogLog
